import Mathlib

/-!
Shallow embedding of the sqliteViewer application (sources:
`sqliteViewer.C`, `gui_handlers.inline.h`, `plot_utils.h`).

Conventions of the embedding:
* `double` arithmetic is idealised as exact rational arithmetic (`ℚ`);
  the constants appearing in the source (0.25, 0.75, 1.5, 3.0, 7.0) are
  all exactly representable, and `std::floor(std::log10 v)` for `v > 0`
  is `Int.log 10 v`.
* `TString` values are Lean `String`s; `TString::IsNull` is emptiness,
  `TString::ToLower` is ASCII lowercasing, `TString::BeginsWith` is a
  literal prefix test.
* The database engine (`TSQLServer::Query`) is external to the
  repository and is modelled as a parameter `engine : String → Option
  QueryTable`; `none` models a null `TSQLResult*`.
* Stateful handlers become pure state-transition functions; the GUI
  `fDataView` becomes the list of lines it displays.
-/

namespace SqliteViewer

/-- ASCII lowercasing of a string, modelling `TString::ToLower` (which
applies `tolower` character by character). -/
def toLowerStr (s : String) : String :=
  String.mk (s.toList.map Char.toLower)

/-- Literal prefix test, modelling `TString::BeginsWith(pat)` on `s`
(no whitespace skipping). -/
def beginsWith (s pat : String) : Bool :=
  List.isPrefixOf pat.toList s.toList

/-- Capacity of the query-history buffer (`kMaxQueryHistory` in
`sqliteViewer.C`, line 76). -/
def kMaxQueryHistory : Nat := 10

/-- History update performed by `OnRunSQLClicked` (lines 142-144 of
`gui_handlers.inline.h`): `push_back` the query, then `pop_front` once
if the size exceeds `kMaxQueryHistory`. -/
def recordQuery (hist : List String) (q : String) : List String :=
  let h := hist ++ [q]
  if h.length > kMaxQueryHistory then h.tail else h

/-- Capacity of the plot-canvas pool (`kMaxCanvases` in
`sqliteViewer.C`, line 71). -/
def kMaxCanvases : Nat := 3

/-- Canvas-queue update performed by `PlotSelectedData` (lines 132-139
of `plot_utils.h`): if the queue already holds at least `kMaxCanvases`
canvases, the front (oldest) one is closed, deleted and popped, and
only then is the new canvas pushed at the back.  Canvases are
identified abstractly by `Nat` tokens. -/
def addCanvas (queue : List Nat) (c : Nat) : List Nat :=
  let q := if queue.length ≥ kMaxCanvases then queue.tail else queue
  q ++ [c]

/-- Materialised query result: field names plus rows of string cells
(`TSQLResult` as consumed by `LoadQueryResultsToTable`). -/
structure QueryTable where
  header : List String
  rows : List (List String)
deriving DecidableEq

/-- The state touched by the handlers we verify: the query history
deque, the lines shown in `fDataView`, and the cached table
(`fCurrentTableHeader` / `fCurrentTableData`). -/
structure ViewerState where
  queryHistory : List String
  dataView : List String
  currentHeader : List String
  currentData : List (List String)
deriving DecidableEq

/-- Formatting with "%-15s" as in the source: left-justify to a minimum width of 15
characters, padding with spaces (longer strings are not truncated). -/
def pad15 (s : String) : String :=
  s ++ String.mk (List.replicate (15 - s.length) ' ')

/-- Cells read for one displayed/stored row: `GetField i` for
`i = 0 .. nFields-1` (`LoadQueryResultsToTable`, lines 130-134 of
`sqliteViewer.C`). -/
def rowCells (nFields : Nat) (row : List String) : List String :=
  (List.range nFields).map (fun i => row.getD i "")

/-- One text line of the data view: the `%-15s`-padded cells
concatenated. -/
def lineOf (cells : List String) : String :=
  String.join (cells.map pad15)

/-- Embeds `MyMainFrame::LoadQueryResultsToTable` (lines 106-159 of
`sqliteViewer.C`): clears the cached table and the data view, stores
the header and all rows, and displays the header line, a blank `" "`
separator line, and one line per row. -/
def loadQueryResults (st : ViewerState) (t : QueryTable) : ViewerState :=
  let nFields := t.header.length
  { st with
    currentHeader := t.header
    currentData := t.rows.map (rowCells nFields)
    dataView :=
      lineOf t.header :: " " :: t.rows.map (fun r => lineOf (rowCells nFields r)) }

/-- Embeds `MyMainFrame::OnRunSQLClicked` (lines 138-189 of
`gui_handlers.inline.h`).  Returns the new state together with a flag
recording whether `fDB->Query` was invoked.  The history is recorded
before validation; a query whose lowercased text does not begin with
"select" is rejected with the read-only message and the database is
not queried; a null engine result produces the failure message; and a
returned table is loaded via `loadQueryResults`. -/
def runSQL (engine : String → Option QueryTable) (st : ViewerState)
    (userQuery : String) : ViewerState × Bool :=
  let lower := toLowerStr userQuery
  let st1 : ViewerState := { st with queryHistory := recordQuery st.queryHistory userQuery }
  if !(beginsWith lower "select") then
    ({ st1 with dataView := ["Only SELECT queries are allowed."] }, false)
  else
    match engine userQuery with
    | none => ({ st1 with dataView := ["Query failed or returned no results."] }, true)
    | some t => (loadQueryResults st1 t, true)

/-- Double-quote wrapping of one CSV cell (`OnExportCSVClicked` writes
`"\"" << cell << "\""`; no escaping of the cell's own characters). -/
def quoteCell (s : String) : String :=
  "\"" ++ s ++ "\""

/-- One CSV line body: quoted cells with a comma after every cell
except the last (the `if (i < size - 1) out << ","` loop of
`OnExportCSVClicked`, lines 56-68 of `gui_handlers.inline.h`). -/
def csvCells : List String → String
  | [] => ""
  | [c] => quoteCell c
  | c :: c2 :: rest => quoteCell c ++ "," ++ csvCells (c2 :: rest)

/-- Full CSV output of `OnExportCSVClicked`: the header line, then one
line per data row, each line terminated by `"\n"`. -/
def exportCSV (header : List String) (rows : List (List String)) : String :=
  csvCells header ++ "\n" ++ String.join (rows.map (fun r => csvCells r ++ "\n"))

/-- Embeds `GetQuartile` from `plot_utils.h` (lines 20-35): sorts the data,
computes the fractional rank `quartile * (n - 1)` and linearly
interpolates between the entries at its floor and ceiling. -/
def GetQuartile (data : List ℚ) (quartile : ℚ) : ℚ :=
  if data.length = 0 then 0
  else
    let sorted := List.insertionSort (· ≤ ·) data
    let idx : ℚ := quartile * ((data.length : ℚ) - 1)
    let idx_below : ℤ := ⌊idx⌋
    let idx_above : ℤ := ⌈idx⌉
    if idx_below = idx_above then sorted.getD idx_below.toNat 0
    else
      let fraction : ℚ := idx - (idx_below : ℚ)
      sorted.getD idx_below.toNat 0 * (1 - fraction) +
        sorted.getD idx_above.toNat 0 * fraction

/-- Embeds `RoundToNiceValue` from `plot_utils.h` (lines 38-51): nonpositive
input returns 1.0; otherwise the mantissa `value / 10^⌊log10 value⌋`
is compared against 1.5 / 3.0 / 7.0 to pick a base of 1, 2, 5 or 10,
scaled back by the decade. -/
def RoundToNiceValue (value : ℚ) : ℚ :=
  if value ≤ 0 then 1
  else
    let exponent : ℤ := Int.log 10 value
    let base : ℚ := value / (10 : ℚ) ^ exponent
    let niceBase : ℚ :=
      if base < 1.5 then 1
      else if base < 3 then 2
      else if base < 7 then 5
      else 10
    niceBase * (10 : ℚ) ^ exponent

/-- Embeds `TMath::MinElement` over the collected data (first element as the
running start; 0 for an empty list, which the source never queries). -/
def listMin : List ℚ → ℚ
  | [] => 0
  | h :: t => t.foldl min h

/-- Embeds `TMath::MaxElement`, analogously. -/
def listMax : List ℚ → ℚ
  | [] => 0
  | h :: t => t.foldl max h

/-- C/C++ `(int)` cast of a floating value: truncation toward zero. -/
def cppIntTrunc (q : ℚ) : ℤ :=
  if q < 0 then -⌊-q⌋ else ⌊q⌋

/-- Freedman–Diaconis bin width of the 1D-histogram branch of
`PlotSelectedData` (lines 147-152 of `plot_utils.h`).  `cbrtN` stands
for the value of `std::cbrt(xData.size())`, which is irrational for
most sizes and therefore passed as a parameter; the properties proved
below hold for every value of it. -/
def fdBinWidth (xData : List ℚ) (cbrtN : ℚ) : ℚ :=
  let q1 := GetQuartile xData 0.25
  let q3 := GetQuartile xData 0.75
  let iqr := q3 - q1
  let rawBinWidth := 2 * iqr / cbrtN
  let binWidth := RoundToNiceValue rawBinWidth
  if binWidth ≤ 0 then 1 else binWidth

/-- Bin count of the same branch (lines 154-157 of `plot_utils.h`):
`(int)((max - min) / binWidth)`, with fallback to 10 when the computed
count is below 1. -/
def fdNBins (xData : List ℚ) (cbrtN : ℚ) : ℤ :=
  let binWidth := fdBinWidth xData cbrtN
  let minVal := listMin xData
  let maxVal := listMax xData
  let nBins := cppIntTrunc ((maxVal - minVal) / binWidth)
  if nBins < 1 then 10 else nBins

/-- Validity test for a cell of `row` at (signed) column `idx`,
modelling `row.size() > idx && !row[idx].IsNull()` from lines 122-123
of `plot_utils.h`; the `int` index is converted to `size_t` in the
comparison, so a negative index is never valid. -/
def validCell (row : List String) (idx : ℤ) : Bool :=
  decide (0 ≤ idx ∧ idx.toNat < row.length ∧ row.getD idx.toNat "" ≠ "")

/-- Series extraction loop of `PlotSelectedData` (lines 121-127 of
`plot_utils.h`): every row whose cell at `idx` is present and non-null
contributes `Atof` of that cell, in row order.  `atof` abstracts
`TString::Atof`. -/
def collectColumn (atof : String → ℚ) (tableData : List (List String))
    (idx : ℤ) : List ℚ :=
  (tableData.filter (fun row => validCell row idx)).map
    (fun row => atof (row.getD idx.toNat ""))

/-- The chart that `PlotSelectedData` builds, abstracted to its kind
and the data series it is built from. -/
inductive PlotChoice where
  | hist1D (xs : List ℚ)
  | hist2D (xs ys : List ℚ)
  | scatter1D (xs : List ℚ)
  | scatter2D (xs ys : List ℚ)
  | noPlot
deriving DecidableEq

/-- Branch selection of `PlotSelectedData` (lines 145-146, 171 and
214-223 of `plot_utils.h`): `plotType` 1 is histogram, 2 is scatter;
within each, the 1D variant on the X series alone is chosen when
`yIndex < 0 || yData.size() != xData.size()`. -/
def plotChoice (atof : String → ℚ) (tableData : List (List String))
    (xIndex yIndex plotType : ℤ) : PlotChoice :=
  let xData := collectColumn atof tableData xIndex
  let yData := collectColumn atof tableData yIndex
  if plotType = 1 then
    if yIndex < 0 ∨ yData.length ≠ xData.length then .hist1D xData
    else .hist2D xData yData
  else if plotType = 2 then
    if yIndex < 0 ∨ yData.length ≠ xData.length then .scatter1D xData
    else .scatter2D xData yData
  else .noPlot

/-- Embeds `PlotSelectedData` as a whole, for the aspects we verify: which
chart is built and how the canvas queue rotates (a new canvas is
created unconditionally, after the eviction check). -/
def plotSelectedData (atof : String → ℚ) (tableData : List (List String))
    (xIndex yIndex plotType : ℤ) (canvasQueue : List Nat) (newCanvas : Nat) :
    PlotChoice × List Nat :=
  (plotChoice atof tableData xIndex yIndex plotType, addCanvas canvasQueue newCanvas)

/-- Concrete stand-in for `TString::Atof`, adequate for cells holding
nonnegative integer literals: a string of digits parses to its value,
anything else (in particular a non-numeric word) parses to 0, exactly
as `atof` returns 0.0 on non-numeric input. -/
def atofModel (s : String) : ℚ :=
  if s.toList ≠ [] ∧ s.toList.all Char.isDigit then
    ((s.toList.foldl (fun acc c => acc * 10 + (c.toNat - 48)) 0 : Nat) : ℚ)
  else 0

/-- Modelled from the spec: the claim counts "valid (non-null,
numeric)" values, i.e. rows whose cell at `idx` is present, non-empty
and numeric.  The code itself (`plot_utils.h` lines 122-126) never
tests numericness; this definition exists to state the claim's own
notion of validity. -/
def specValidCount (tableData : List (List String)) (idx : ℤ) : Nat :=
  (tableData.filter (fun row =>
    validCell row idx && (row.getD idx.toNat "").toList.all Char.isDigit)).length

/-- Modelled from the spec: the claim's acceptance condition for the
run-SQL handler — compare case-insensitively *after dropping leading
whitespace*. -/
def claimAcceptsC1 (q : String) : Bool :=
  beginsWith (toLowerStr (String.mk (q.toList.dropWhile Char.isWhitespace))) "select"

/-! ## Helper lemmas -/

theorem recordQuery_of_lt {hist : List String} (q : String)
    (h : hist.length < kMaxQueryHistory) : recordQuery hist q = hist ++ [q] := by
  simp only [recordQuery, List.length_append, List.length_singleton]
  rw [if_neg]
  omega

theorem recordQuery_length_le {hist : List String} (q : String)
    (h : hist.length ≤ kMaxQueryHistory) :
    (recordQuery hist q).length ≤ kMaxQueryHistory := by
  simp only [recordQuery]
  split
  · simp [List.length_tail]
    omega
  · simp only [List.length_append, List.length_singleton] at *
    omega

theorem foldl_recordQuery_le (qs : List String) :
    ∀ hist : List String, hist.length ≤ kMaxQueryHistory →
      (List.foldl recordQuery hist qs).length ≤ kMaxQueryHistory := by
  induction qs with
  | nil => intro hist h; simpa using h
  | cons q t ih =>
    intro hist h
    simpa using ih (recordQuery hist q) (recordQuery_length_le q h)

theorem foldl_recordQuery_id (qs : List String) :
    ∀ hist : List String, hist.length + qs.length ≤ kMaxQueryHistory →
      List.foldl recordQuery hist qs = hist ++ qs := by
  induction qs with
  | nil => intro hist _; simp
  | cons q t ih =>
    intro hist h
    simp only [List.length_cons] at h
    rw [List.foldl_cons, recordQuery_of_lt q (by omega),
      ih (hist ++ [q]) (by simp; omega)]
    simp

theorem runSQL_history (engine : String → Option QueryTable)
    (st : ViewerState) (q : String) :
    (runSQL engine st q).1.queryHistory = recordQuery st.queryHistory q := by
  unfold runSQL
  dsimp only
  split
  · rfl
  · cases engine q <;> rfl

theorem hist_eleven (qs : List String) (h : qs.length = 11) :
    List.foldl recordQuery [] qs = qs.tail := by
  rcases List.eq_nil_or_concat qs with rfl | ⟨l, a, rfl⟩
  · simp at h
  · have hl : l.length = 10 := by simpa using h
    rw [List.concat_eq_append] at *
    rw [List.foldl_append, foldl_recordQuery_id l [] (by simp [hl, kMaxQueryHistory]),
      List.nil_append, List.foldl_cons, List.foldl_nil]
    have hgt : (l ++ [a]).length > kMaxQueryHistory := by
      simp [hl, kMaxQueryHistory]
    simp [recordQuery, hgt]
    intro hcon
    simp [hl, kMaxQueryHistory] at hcon

theorem addCanvas_length_le {queue : List Nat} (c : Nat)
    (h : queue.length ≤ kMaxCanvases) :
    (addCanvas queue c).length ≤ kMaxCanvases := by
  simp only [addCanvas, kMaxCanvases] at *
  split
  · rename_i hge
    simp only [List.length_append, List.length_tail, List.length_singleton]
    omega
  · rename_i hlt
    simp only [List.length_append, List.length_singleton]
    omega

theorem foldl_addCanvas_le (cs : List Nat) :
    ∀ queue : List Nat, queue.length ≤ kMaxCanvases →
      (List.foldl addCanvas queue cs).length ≤ kMaxCanvases := by
  induction cs with
  | nil => intro queue h; simpa using h
  | cons c t ih =>
    intro queue h
    simpa using ih (addCanvas queue c) (addCanvas_length_le c h)

theorem addCanvas_full {queue : List Nat} (c : Nat) (h : queue.length = kMaxCanvases) :
    addCanvas queue c = queue.tail ++ [c] := by
  simp only [addCanvas]
  rw [if_pos (by omega)]

theorem string_join_nil : String.join ([] : List String) = "" := rfl

theorem string_join_cons (a : String) (l : List String) :
    String.join (a :: l) = a ++ String.join l := by
  apply String.ext
  simp

theorem csvCells_intersperse (cells : List String) :
    csvCells cells = String.join (List.intersperse "," (cells.map quoteCell)) := by
  induction cells with
  | nil => rfl
  | cons c rest ih =>
    cases rest with
    | nil =>
      simp [csvCells, List.intersperse_singleton, string_join_cons, string_join_nil,
        String.append_empty]
    | cons c2 t =>
      simp only [csvCells, List.map_cons, List.intersperse_cons_cons,
        string_join_cons, ih]
      rw [String.append_assoc]

theorem rtn_of_pos {v : ℚ} (hv : 0 < v) :
    RoundToNiceValue v =
      (if v / (10 : ℚ) ^ (Int.log 10 v) < 1.5 then (1 : ℚ)
       else if v / (10 : ℚ) ^ (Int.log 10 v) < 3 then 2
       else if v / (10 : ℚ) ^ (Int.log 10 v) < 7 then 5
       else 10) * (10 : ℚ) ^ (Int.log 10 v) := by
  unfold RoundToNiceValue
  rw [if_neg (not_le.mpr hv)]

theorem rtn_pos (v : ℚ) : 0 < RoundToNiceValue v := by
  rcases le_or_lt v 0 with h | h
  · unfold RoundToNiceValue
    rw [if_pos h]
    norm_num
  · rw [rtn_of_pos h]
    have hp : (0 : ℚ) < (10 : ℚ) ^ (Int.log 10 v) := zpow_pos (by norm_num) _
    have hb : (0 : ℚ) <
        (if v / (10 : ℚ) ^ (Int.log 10 v) < 1.5 then (1 : ℚ)
         else if v / (10 : ℚ) ^ (Int.log 10 v) < 3 then 2
         else if v / (10 : ℚ) ^ (Int.log 10 v) < 7 then 5
         else 10) := by
      split_ifs <;> norm_num
    exact mul_pos hb hp

theorem log10_eq_of {k : ℤ} {v : ℚ} (h1 : (10 : ℚ) ^ k ≤ v)
    (h2 : v < (10 : ℚ) ^ (k + 1)) : Int.log 10 v = k := by
  have hv : 0 < v := lt_of_lt_of_le (zpow_pos (by norm_num) k) h1
  have hcast : (((10 : ℕ) : ℚ)) = (10 : ℚ) := by norm_num
  have hk1 : k ≤ Int.log 10 v := by
    rw [← Int.zpow_le_iff_le_log (by norm_num) hv, hcast]
    exact h1
  have hk2 : Int.log 10 v < k + 1 := by
    rw [← Int.lt_zpow_iff_log_lt (by norm_num) hv, hcast]
    exact h2
  omega

theorem niceBase_mono {b1 b2 : ℚ} (h : b1 ≤ b2) :
    (if b1 < 1.5 then (1 : ℚ) else if b1 < 3 then 2 else if b1 < 7 then 5 else 10) ≤
    (if b2 < 1.5 then (1 : ℚ) else if b2 < 3 then 2 else if b2 < 7 then 5 else 10) := by
  split_ifs <;> norm_num <;> linarith

theorem getQuartile_interp (data : List ℚ) (q : ℚ) (hne : data ≠ []) :
    GetQuartile data q =
      (List.insertionSort (· ≤ ·) data).getD (⌊q * ((data.length : ℚ) - 1)⌋).toNat 0 *
        (1 - (q * ((data.length : ℚ) - 1) - ((⌊q * ((data.length : ℚ) - 1)⌋ : ℤ) : ℚ))) +
      (List.insertionSort (· ≤ ·) data).getD (⌈q * ((data.length : ℚ) - 1)⌉).toNat 0 *
        (q * ((data.length : ℚ) - 1) - ((⌊q * ((data.length : ℚ) - 1)⌋ : ℤ) : ℚ)) := by
  have hlen : ¬ (data.length = 0) := by simpa using hne
  unfold GetQuartile
  rw [if_neg hlen]
  by_cases hfc : (⌊q * ((data.length : ℚ) - 1)⌋ : ℤ) = ⌈q * ((data.length : ℚ) - 1)⌉
  · rw [if_pos hfc]
    have hint : ((⌊q * ((data.length : ℚ) - 1)⌋ : ℤ) : ℚ) = q * ((data.length : ℚ) - 1) := by
      have h1 := Int.floor_le (q * ((data.length : ℚ) - 1))
      have h2 := Int.le_ceil (q * ((data.length : ℚ) - 1))
      rw [← hfc] at h2
      exact le_antisymm h1 h2
    rw [← hfc, hint, sub_self]
    ring
  · rw [if_neg hfc]

/-! ## Claim theorems -/

/-- C1, counterexample: the query "  select 1" (leading spaces,
lowercase) satisfies the whitespace-tolerant acceptance condition
stated by the claim, yet the handler rejects it with the read-only
message and never queries the database. -/
theorem claim_C1_counterexample :
    claimAcceptsC1 "  select 1" = true ∧
    (runSQL (fun _ => none) ⟨[], [], [], []⟩ "  select 1").2 = false ∧
    (runSQL (fun _ => none) ⟨[], [], [], []⟩ "  select 1").1.dataView =
      ["Only SELECT queries are allowed."] := by
  decide

/-- C1, amended: a submitted query is rejected with the message
"Only SELECT queries are allowed." and the database is not queried if
and only if the lowercased string does not literally begin with
"select" — case-insensitive, but with no tolerance for leading
whitespace (so both "DROP TABLE x" and "  select 1" are rejected). -/
theorem claim_C1_amended_select_gate (engine : String → Option QueryTable)
    (st : ViewerState) (q : String) :
    ((runSQL engine st q).1.dataView = ["Only SELECT queries are allowed."] ∧
      (runSQL engine st q).2 = false) ↔
    beginsWith (toLowerStr q) "select" = false := by
  unfold runSQL
  by_cases h : beginsWith (toLowerStr q) "select"
  · cases he : engine q <;> simp [h, he, loadQueryResults]
  · simp [Bool.not_eq_true] at h
    simp [h]

/-- C2, counterexample: a query passing the SELECT check whose engine
result is non-null but holds zero rows is loaded as a header-only
view; the message "Query failed or returned no results." is not
shown, contrary to the claim for the empty-result (zero rows) case. -/
theorem claim_C2_counterexample :
    (runSQL (fun _ => some ⟨["a"], []⟩) ⟨[], [], [], []⟩ "select 1").1.dataView =
      [lineOf ["a"], " "] ∧
    "Query failed or returned no results." ∉
      (runSQL (fun _ => some ⟨["a"], []⟩) ⟨[], [], [], []⟩ "select 1").1.dataView := by
  decide

/-- C2, amended: for a query passing the SELECT prefix check, a null
engine result replaces the view with exactly the failure message (the
view is cleared first, so the previous table is not left displayed),
while a non-null zero-row result is rendered as the cleared view
holding only the header line and separator, without the failure
message. -/
theorem claim_C2_amended_failure_view (engine : String → Option QueryTable)
    (st : ViewerState) (q : String)
    (h : beginsWith (toLowerStr q) "select" = true) :
    (engine q = none →
      (runSQL engine st q).1.dataView = ["Query failed or returned no results."]) ∧
    (∀ hdr : List String, engine q = some ⟨hdr, []⟩ →
      (runSQL engine st q).1.dataView = [lineOf hdr, " "]) := by
  constructor
  · intro he
    simp [runSQL, h, he]
  · intro hdr he
    simp [runSQL, h, he, loadQueryResults]

/-- Witness for C2 (amended) at a concrete failing engine. -/
theorem claim_C2_witness :
    (runSQL (fun _ => none) ⟨[], [], [], []⟩ "select 1").1.dataView =
      ["Query failed or returned no results."] :=
  (claim_C2_amended_failure_view (fun _ => none) ⟨[], [], [], []⟩ "select 1"
    (by decide)).1 rfl

/-- C3: for every positive `v`, `RoundToNiceValue v` is `m * 10 ^ k`
with `m` among 1, 2, 5, 10, where `k = ⌊log10 v⌋` and `m` is selected
by comparing the mantissa `v / 10 ^ k` against the thresholds 1.5, 3
and 7; and `RoundToNiceValue` is monotone non-decreasing on every
decade `[10 ^ k, 10 ^ (k + 1))`. -/
theorem claim_C3_round_to_nice :
    (∀ v : ℚ, 0 < v → ∃ (m : ℚ) (k : ℤ),
      (m = 1 ∨ m = 2 ∨ m = 5 ∨ m = 10) ∧ k = Int.log 10 v ∧
      m = (if v / (10 : ℚ) ^ k < 1.5 then (1 : ℚ)
           else if v / (10 : ℚ) ^ k < 3 then 2
           else if v / (10 : ℚ) ^ k < 7 then 5
           else 10) ∧
      RoundToNiceValue v = m * (10 : ℚ) ^ k) ∧
    (∀ (k : ℤ) (v1 v2 : ℚ), (10 : ℚ) ^ k ≤ v1 → v1 ≤ v2 → v2 < (10 : ℚ) ^ (k + 1) →
      RoundToNiceValue v1 ≤ RoundToNiceValue v2) := by
  constructor
  · intro v hv
    rw [rtn_of_pos hv]
    split_ifs with h1 h2 h3
    · exact ⟨1, Int.log 10 v, Or.inl rfl, rfl, by rw [if_pos h1], rfl⟩
    · exact ⟨2, Int.log 10 v, Or.inr (Or.inl rfl), rfl,
        by rw [if_neg h1, if_pos h2], rfl⟩
    · exact ⟨5, Int.log 10 v, Or.inr (Or.inr (Or.inl rfl)), rfl,
        by rw [if_neg h1, if_neg h2, if_pos h3], rfl⟩
    · exact ⟨10, Int.log 10 v, Or.inr (Or.inr (Or.inr rfl)), rfl,
        by rw [if_neg h1, if_neg h2, if_neg h3], rfl⟩
  · intro k v1 v2 h1 h12 h2
    have hv1 : 0 < v1 := lt_of_lt_of_le (zpow_pos (by norm_num) k) h1
    have hl1 : Int.log 10 v1 = k := log10_eq_of h1 (lt_of_le_of_lt h12 h2)
    have hl2 : Int.log 10 v2 = k := log10_eq_of (le_trans h1 h12) h2
    rw [rtn_of_pos hv1, rtn_of_pos (lt_of_lt_of_le hv1 h12), hl1, hl2]
    have hp : (0 : ℚ) < (10 : ℚ) ^ k := zpow_pos (by norm_num) k
    have hb : v1 / (10 : ℚ) ^ k ≤ v2 / (10 : ℚ) ^ k := (div_le_div_right hp).mpr h12
    exact mul_le_mul_of_nonneg_right (niceBase_mono hb) (le_of_lt hp)

/-- Witness for C3, exercising both conjuncts at concrete points of
the decade `[1, 10)`. -/
theorem claim_C3_witness :
    (∃ (m : ℚ) (k : ℤ), (m = 1 ∨ m = 2 ∨ m = 5 ∨ m = 10) ∧ k = Int.log 10 (3 : ℚ) ∧
      m = (if (3 : ℚ) / (10 : ℚ) ^ k < 1.5 then (1 : ℚ)
           else if (3 : ℚ) / (10 : ℚ) ^ k < 3 then 2
           else if (3 : ℚ) / (10 : ℚ) ^ k < 7 then 5
           else 10) ∧
      RoundToNiceValue 3 = m * (10 : ℚ) ^ k) ∧
    RoundToNiceValue 2 ≤ RoundToNiceValue 6 :=
  ⟨claim_C3_round_to_nice.1 3 (by norm_num),
   claim_C3_round_to_nice.2 0 2 6 (by norm_num) (by norm_num) (by norm_num)⟩

/-- C4: `GetQuartile` sorts the data and linearly interpolates between
the adjacent order statistics at the fractional rank `q * (n - 1)`:
the sort is a sorted permutation of the input, the two interpolation
indices are the floor and ceiling of the rank and are adjacent, and
the concrete values of the claim hold, including
`GetQuartile [5] q = 5` for every `q`. -/
theorem claim_C4_quartile_interpolation :
    (∀ (data : List ℚ) (q : ℚ), data ≠ [] →
      List.Sorted (· ≤ ·) (List.insertionSort (· ≤ ·) data) ∧
      (List.insertionSort (· ≤ ·) data).Perm data ∧
      (⌈q * ((data.length : ℚ) - 1)⌉ = ⌊q * ((data.length : ℚ) - 1)⌋ ∨
        ⌈q * ((data.length : ℚ) - 1)⌉ = ⌊q * ((data.length : ℚ) - 1)⌋ + 1) ∧
      GetQuartile data q =
        (List.insertionSort (· ≤ ·) data).getD (⌊q * ((data.length : ℚ) - 1)⌋).toNat 0 *
          (1 - (q * ((data.length : ℚ) - 1) - ((⌊q * ((data.length : ℚ) - 1)⌋ : ℤ) : ℚ))) +
        (List.insertionSort (· ≤ ·) data).getD (⌈q * ((data.length : ℚ) - 1)⌉).toNat 0 *
          (q * ((data.length : ℚ) - 1) - ((⌊q * ((data.length : ℚ) - 1)⌋ : ℤ) : ℚ))) ∧
    GetQuartile [1, 2, 3, 4] 0.25 = 1.75 ∧
    GetQuartile [1, 2, 3, 4] 0.75 = 3.25 ∧
    (∀ q : ℚ, GetQuartile [5] q = 5) := by
  refine ⟨fun data q hne => ⟨List.sorted_insertionSort _ _, List.perm_insertionSort _ _,
      ?_, getQuartile_interp data q hne⟩, ?_, ?_, ?_⟩
  · have h1 := Int.floor_le_ceil (q * ((data.length : ℚ) - 1))
    have h2 := Int.ceil_le_floor_add_one (q * ((data.length : ℚ) - 1))
    omega
  · have hc : (⌈(3 / 4 : ℚ)⌉ : ℤ) = 1 := by
      rw [Int.ceil_eq_iff] <;> norm_num
    have h0 : Int.toNat 0 = 0 := rfl
    have h1 : Int.toNat 1 = 1 := rfl
    norm_num [GetQuartile, List.insertionSort, List.orderedInsert, hc, h0, h1]
  · have hc : (⌈(9 / 4 : ℚ)⌉ : ℤ) = 3 := by
      rw [Int.ceil_eq_iff] <;> norm_num
    have h2 : Int.toNat 2 = 2 := rfl
    have h3 : Int.toNat 3 = 3 := rfl
    norm_num [GetQuartile, List.insertionSort, List.orderedInsert, hc, h2, h3]
  · intro q
    norm_num [GetQuartile]

/-- Witness for C4 at a concrete non-empty list. -/
theorem claim_C4_witness :
    List.Sorted (· ≤ ·) (List.insertionSort (· ≤ ·) [(1 : ℚ), 2, 3, 4]) :=
  (claim_C4_quartile_interpolation.1 [1, 2, 3, 4] 0.25 (List.cons_ne_nil _ _)).1

/-- C5: for every sample list of size at least 2 and every value of
the cube root of the size, the Freedman–Diaconis bin width after the
nice-rounding and fallback rules is strictly positive, and the bin
count after its fallback (10 bins when the computed count is below 1)
is at least 1. -/
theorem claim_C5_fd_binning (xData : List ℚ) (cbrtN : ℚ)
    (h : 2 ≤ xData.length) :
    0 < fdBinWidth xData cbrtN ∧ 1 ≤ fdNBins xData cbrtN := by
  refine ⟨?_, ?_⟩
  · simp only [fdBinWidth]
    split
    · norm_num
    · rename_i hb
      push_neg at hb
      exact hb
  · simp only [fdNBins]
    split
    · norm_num
    · rename_i hn
      omega

/-- Witness for C5 at a concrete two-element sample. -/
theorem claim_C5_witness :
    0 < fdBinWidth [1, 2] (63 / 50) ∧ 1 ≤ fdNBins [1, 2] (63 / 50) :=
  claim_C5_fd_binning [1, 2] (63 / 50) (by norm_num)

/-- C6, counterexample: in the table `[["1","abc"],["2","5"]]` with X
column 0 and Y column 1, the valid counts in the sense of the claim
(non-null and numeric) are 2 for X and 1 for Y — mismatched — yet the
code, which never tests numericness and parses "abc" as 0, collects
equal counts and builds a 2D histogram including the Y series instead
of the claimed 1D fallback. -/
theorem claim_C6_counterexample :
    plotChoice atofModel [["1", "abc"], ["2", "5"]] 0 1 1 =
      PlotChoice.hist2D [1, 2] [0, 5] ∧
    specValidCount [["1", "abc"], ["2", "5"]] 0 = 2 ∧
    specValidCount [["1", "abc"], ["2", "5"]] 1 = 1 := by
  refine ⟨?_, by decide, by decide⟩
  have e : plotChoice atofModel [["1", "abc"], ["2", "5"]] 0 1 1 =
      PlotChoice.hist2D (collectColumn atofModel [["1", "abc"], ["2", "5"]] 0)
        (collectColumn atofModel [["1", "abc"], ["2", "5"]] 1) := rfl
  have hx : collectColumn atofModel [["1", "abc"], ["2", "5"]] 0 =
      [((1 : ℕ) : ℚ), ((2 : ℕ) : ℚ)] := rfl
  have hy : collectColumn atofModel [["1", "abc"], ["2", "5"]] 1 =
      [(0 : ℚ), ((5 : ℕ) : ℚ)] := rfl
  rw [e, hx, hy]
  norm_num

/-- C6, amended: when no Y column is selected or the counts of the
collected series (non-null cells, numeric or not, each parsed by
`Atof`) differ, `PlotSelectedData` builds the 1D plot of the X series
alone, for both the histogram and the scatter kind, with no error
report. -/
theorem claim_C6_amended_mismatch_fallback (atof : String → ℚ)
    (tbl : List (List String)) (xI yI pT : ℤ)
    (hpt : pT = 1 ∨ pT = 2)
    (hmis : yI < 0 ∨
      (collectColumn atof tbl yI).length ≠ (collectColumn atof tbl xI).length) :
    plotChoice atof tbl xI yI pT =
      if pT = 1 then PlotChoice.hist1D (collectColumn atof tbl xI)
      else PlotChoice.scatter1D (collectColumn atof tbl xI) := by
  rcases hpt with rfl | rfl
  · norm_num [plotChoice, hmis]
  · norm_num [plotChoice, hmis]

/-- Witness for C6 (amended) at a concrete table with no Y column
selected. -/
theorem claim_C6_witness :
    plotChoice atofModel [["1"], ["2"]] 0 (-1) 1 =
      PlotChoice.hist1D (collectColumn atofModel [["1"], ["2"]] 0) := by
  have h := claim_C6_amended_mismatch_fallback atofModel [["1"], ["2"]] 0 (-1) 1
    (Or.inl rfl) (Or.inl (by norm_num))
  simpa using h

/-- C7: the query-history buffer is updated by `OnRunSQLClicked`
exactly through `recordQuery`; it never holds more than 10 entries,
and after an 11th submission the oldest entry is evicted (FIFO) so
that the most recent 10 entries remain in submission order,
most-recent-last. -/
theorem claim_C7_history_bounded_fifo :
    (∀ (engine : String → Option QueryTable) (st : ViewerState) (q : String),
      (runSQL engine st q).1.queryHistory = recordQuery st.queryHistory q) ∧
    (∀ qs : List String, (List.foldl recordQuery [] qs).length ≤ kMaxQueryHistory) ∧
    (∀ qs : List String, qs.length = 11 → List.foldl recordQuery [] qs = qs.tail) :=
  ⟨runSQL_history,
   fun qs => foldl_recordQuery_le qs [] (by simp),
   hist_eleven⟩

/-- Witness for C7 at a concrete run of 11 submissions. -/
theorem claim_C7_witness :
    List.foldl recordQuery []
      ["q1", "q2", "q3", "q4", "q5", "q6", "q7", "q8", "q9", "q10", "q11"] =
      ["q2", "q3", "q4", "q5", "q6", "q7", "q8", "q9", "q10", "q11"] :=
  claim_C7_history_bounded_fifo.2.2
    ["q1", "q2", "q3", "q4", "q5", "q6", "q7", "q8", "q9", "q10", "q11"] rfl

/-- C8: the plot-canvas pool is rotated by `PlotSelectedData` exactly
through `addCanvas`; it never holds more than 3 windows, and whenever
a plot is requested with the pool already holding 3 windows the
oldest one is evicted before the new one is appended. -/
theorem claim_C8_canvas_pool_bounded :
    (∀ (atof : String → ℚ) (tbl : List (List String)) (xI yI pT : ℤ)
      (queue : List Nat) (c : Nat),
      (plotSelectedData atof tbl xI yI pT queue c).2 = addCanvas queue c) ∧
    (∀ cs : List Nat, (List.foldl addCanvas [] cs).length ≤ kMaxCanvases) ∧
    (∀ (queue : List Nat) (c : Nat), queue.length = kMaxCanvases →
      addCanvas queue c = queue.tail ++ [c]) :=
  ⟨fun _ _ _ _ _ _ _ => rfl,
   fun cs => foldl_addCanvas_le cs [] (by simp),
   fun _ c h => addCanvas_full c h⟩

/-- Witness for C8 at a concrete full pool. -/
theorem claim_C8_witness : addCanvas [1, 2, 3] 4 = [2, 3, 4] :=
  claim_C8_canvas_pool_bounded.2.2 [1, 2, 3] 4 rfl

/-- C9: CSV export writes the header line and one line per data row,
every cell double-quoted and comma-separated with no escaping: every
line body is the comma-intercalation of the quoted cells, and the
table with header `["a","b"]` and single row `["1","2"]` produces
exactly the claimed bytes. -/
theorem claim_C9_csv_format :
    exportCSV ["a", "b"] [["1", "2"]] = "\"a\",\"b\"\n\"1\",\"2\"\n" ∧
    (∀ cells : List String,
      csvCells cells = String.join (List.intersperse "," (cells.map quoteCell))) ∧
    (∀ header rows, exportCSV header rows =
      csvCells header ++ "\n" ++ String.join (rows.map (fun r => csvCells r ++ "\n"))) :=
  ⟨by decide, csvCells_intersperse, fun _ _ => rfl⟩

/-- C10: for every input `v ≤ 0` — in particular the zero raw bin
width arising from a zero interquartile range — `RoundToNiceValue`
returns exactly 1, so the function is total. -/
theorem claim_C10_nonpositive_input (v : ℚ) (h : v ≤ 0) :
    RoundToNiceValue v = 1 := by
  simp [RoundToNiceValue, if_pos h]

/-- Witness for C10 at `v = 0`, the zero raw bin width. -/
theorem claim_C10_witness : RoundToNiceValue 0 = 1 :=
  claim_C10_nonpositive_input 0 le_rfl

end SqliteViewer
